import Mathlib

/-!
Verification of the odoh-server request pipeline (src/odoh.go).

Go strings are modelled as lists of byte values (`GoStr`), machine
integers as `Nat`/`Int` with explicit bounds where they matter, and the
network as an explicit outcome oracle.  All definitions are translated
from src/odoh.go; the wire-format and base64 helpers model the parts of
`encoding/base64` and `github.com/miekg/dns` this server exercises.
-/

namespace Odoh

/-- A Go string: a sequence of bytes (each < 256 for well-formed strings). -/
abbrev GoStr := List Nat

/-- Bytes of an ASCII Lean string literal, used for the Go string constants
appearing in src/odoh.go (all of which are ASCII). -/
def strBytes (s : String) : GoStr := s.data.map Char.toNat

/-- The base64url alphabet (RFC 4648 §5), index to character code, as used by
Go's `base64.RawURLEncoding`. -/
def encChar (i : Nat) : Nat :=
  if i < 26 then 65 + i
  else if i < 52 then 97 + (i - 26)
  else if i < 62 then 48 + (i - 52)
  else if i = 62 then 45
  else 95

/-- Inverse of the base64url alphabet: character code to index, `none` for a
character outside the alphabet (Go's decoder reports `CorruptInputError`). -/
def decIdx (c : Nat) : Option Nat :=
  if 65 ≤ c ∧ c ≤ 90 then some (c - 65)
  else if 97 ≤ c ∧ c ≤ 122 then some (c - 97 + 26)
  else if 48 ≤ c ∧ c ≤ 57 then some (c - 48 + 52)
  else if c = 45 then some 62
  else if c = 95 then some 63
  else none

/-- `base64.RawURLEncoding.EncodeToString`: unpadded base64url encoding of a
byte sequence, produced 3 input bytes / 4 output characters at a time. -/
def b64encode : List Nat → List Nat
  | [] => []
  | [b0] => [encChar (b0 / 4), encChar (b0 % 4 * 16)]
  | [b0, b1] => [encChar (b0 / 4), encChar (b0 % 4 * 16 + b1 / 16), encChar (b1 % 16 * 4)]
  | b0 :: b1 :: b2 :: rest =>
      encChar (b0 / 4) :: encChar (b0 % 4 * 16 + b1 / 16) ::
      encChar (b1 % 16 * 4 + b2 / 64) :: encChar (b2 % 64) :: b64encode rest

/-- `base64.RawURLEncoding.DecodeString`: decodes 4 characters / 3 bytes at a
time; a trailing quantum of 2 or 3 characters yields 1 or 2 bytes, a trailing
quantum of 1 character (length ≡ 1 mod 4) or any character outside the
alphabet is an error, modelled as `none`. -/
def b64decode : List Nat → Option (List Nat)
  | [] => some []
  | [_] => none
  | [c0, c1] => do
      let i0 ← decIdx c0
      let i1 ← decIdx c1
      pure [i0 * 4 + i1 / 16]
  | [c0, c1, c2] => do
      let i0 ← decIdx c0
      let i1 ← decIdx c1
      let i2 ← decIdx c2
      pure [i0 * 4 + i1 / 16, i1 % 16 * 16 + i2 / 4]
  | c0 :: c1 :: c2 :: c3 :: rest => do
      let i0 ← decIdx c0
      let i1 ← decIdx c1
      let i2 ← decIdx c2
      let i3 ← decIdx c3
      let tl ← b64decode rest
      pure ((i0 * 4 + i1 / 16) :: (i1 % 16 * 16 + i2 / 4) :: (i2 % 4 * 64 + i3) :: tl)

theorem decIdx_encChar {i : Nat} (h : i < 64) : decIdx (encChar i) = some i := by
  unfold encChar decIdx
  split_ifs <;> simp_all <;> omega

/-- Base64url round trip: decoding an encoding recovers the original bytes. -/
theorem b64decode_encode : ∀ bs : List Nat, (∀ b ∈ bs, b < 256) →
    b64decode (b64encode bs) = some bs := by
  intro bs
  induction bs using b64encode.induct with
  | case1 => intro _; rfl
  | case2 b0 =>
      intro h
      have hb0 : b0 < 256 := h b0 (by simp)
      simp only [b64encode, b64decode]
      rw [decIdx_encChar (by omega), decIdx_encChar (by omega)]
      simp only [Option.bind_eq_bind, Option.some_bind, Option.pure_def]
      congr 1
      congr 1
      omega
  | case3 b0 b1 =>
      intro h
      have hb0 : b0 < 256 := h b0 (by simp)
      have hb1 : b1 < 256 := h b1 (by simp)
      simp only [b64encode, b64decode]
      rw [decIdx_encChar (by omega), decIdx_encChar (by omega), decIdx_encChar (by omega)]
      simp only [Option.bind_eq_bind, Option.some_bind, Option.pure_def]
      congr 1
      congr 1
      · omega
      · congr 1
        omega
  | case4 b0 b1 b2 rest ih =>
      intro h
      have hb0 : b0 < 256 := h b0 (by simp)
      have hb1 : b1 < 256 := h b1 (by simp)
      have hb2 : b2 < 256 := h b2 (by simp)
      have hrest : ∀ b ∈ rest, b < 256 := by
        intro b hb; exact h b (by simp [hb])
      simp only [b64encode, b64decode]
      rw [decIdx_encChar (by omega), decIdx_encChar (by omega),
        decIdx_encChar (by omega), decIdx_encChar (by omega), ih hrest]
      simp only [Option.bind_eq_bind, Option.some_bind, Option.pure_def]
      congr 1
      congr 1
      · omega
      · congr 1
        · omega
        · congr 1
          omega

/-! ### The DNS data model (the parts of github.com/miekg/dns the server uses) -/

/-- `dns.Question`: one entry of a message's question section.  `name` is the
Go string form of the domain name; `qtype` and `qclass` are uint16 values. -/
structure Question where
  name : GoStr
  qtype : Nat
  qclass : Nat
deriving DecidableEq, Repr

/-- `dns.Msg`: header fields (as in `dns.MsgHdr`), the question section, and
the three record sections.  The server never inspects individual resource
records — it only copies them from the upstream answer into the packed
response — so records are modelled by their wire encoding (a byte list). -/
structure DnsMsg where
  id : Nat
  response : Bool
  opcode : Nat
  authoritative : Bool
  truncated : Bool
  recursionDesired : Bool
  recursionAvailable : Bool
  zero : Bool
  authenticatedData : Bool
  checkingDisabled : Bool
  rcode : Nat
  question : List Question
  answer : List (List Nat)
  ns : List (List Nat)
  extra : List (List Nat)
deriving DecidableEq, Repr

def typeA : Nat := 1
def typeAAAA : Nat := 28
def classINET : Nat := 1
def opcodeQuery : Nat := 0
def rcodeSuccess : Nat := 0
def rcodeServerFailure : Nat := 2

/-- Decimal digits of a natural number, as Go string bytes (for `strconv`). -/
def natDecimal (n : Nat) : GoStr := (Nat.toDigits 10 n).map Char.toNat

/-- `dns.Type.String()`: the text mnemonic of a record type.  Modelled at the
fidelity the server needs: the two mnemonics this server can ever feed back
into `createQuery` ("A", "AAAA") are exact, every other value is rendered
through the `"TYPE" + strconv.Itoa` fallback miekg/dns uses for unknown
types (the full mnemonic table is not reproduced here; no claim depends on
which mnemonic a type other than A maps to, only on the mapping being a
function of the type). -/
def typeString (t : Nat) : GoStr :=
  if t = typeA then strBytes "A"
  else if t = typeAAAA then strBytes "AAAA"
  else strBytes "TYPE" ++ natDecimal t

/-- `dns.IsFqdn`: the string ends in a dot that is not escaped, i.e. the dot
is preceded by an even number of backslashes (byte 92). -/
def isFqdn (s : GoStr) : Bool :=
  match s.getLast? with
  | some 46 => (s.dropLast.reverse.takeWhile (fun b => b = 92)).length % 2 = 0
  | _ => false

/-- `dns.Fqdn`: append a trailing dot unless the string is already fully
qualified. -/
def fqdn (s : GoStr) : GoStr := if isFqdn s then s else s ++ [46]

/-! ### Wire encoding (`Msg.Pack`) -/

/-- Big-endian bytes of a uint16 (Go packs uint16 fields this way; values are
reduced mod 2^16 as Go's fixed-width arithmetic would). -/
def pack16 (n : Nat) : List Nat := [n / 256 % 256, n % 256]

/-- Not the label separator (the dot, byte 46). -/
def notDot (b : Nat) : Bool := b ≠ 46

/-- Splits a fully-qualified name into its length-prefixed wire labels, one
label (the bytes up to the next dot) per step.  `PackDomainName`'s escape
processing is not modelled: the names this development feeds through it
contain no backslash (see `plainByte`).  Errors (`none`): an empty label or
a label longer than 63 bytes.  `fuel` only forces structural termination;
`s.length + 1` always suffices. -/
def encodeLabels : Nat → GoStr → Option (List Nat)
  | 0, _ => none
  | _ + 1, [] => some []
  | fuel + 1, x :: s =>
      let lab := (x :: s).takeWhile notDot
      let rest := ((x :: s).dropWhile notDot).tail
      if lab.length = 0 then none
      else if lab.length > 63 then none
      else
        match encodeLabels fuel rest with
        | none => none
        | some bs => some ((lab.length :: lab) ++ bs)

/-- `PackDomainName`: the wire form of a domain name.  Requires a fully
qualified name (miekg's `ErrFqdn` otherwise); the root name "." packs to a
single zero byte; otherwise length-prefixed labels, a terminating zero byte,
and the 255-octet total length cap. -/
def encodeName (s : GoStr) : Option (List Nat) :=
  if ¬ isFqdn s then none
  else if s = [46] then some [0]
  else
    match encodeLabels (s.length + 1) s with
    | none => none
    | some bs => if bs.length + 1 > 255 then none else some (bs ++ [0])

/-- Wire form of one question: packed name, then qtype and qclass. -/
def packQuestion (q : Question) : Option (List Nat) :=
  match encodeName q.name with
  | none => none
  | some nb => some (nb ++ pack16 q.qtype ++ pack16 q.qclass)

def packQuestions : List Question → Option (List Nat)
  | [] => some []
  | q :: qs =>
      match packQuestion q, packQuestions qs with
      | some b, some bs => some (b ++ bs)
      | _, _ => none

def boolBit (b : Bool) : Nat := if b then 1 else 0

/-- The 16-bit flags word of the header, laid out as `dns.Header.Bits` is
built in `Msg.Pack`: QR(15) Opcode(11..14) AA(10) TC(9) RD(8) RA(7) Z(6)
AD(5) CD(4) Rcode(0..3). -/
def packFlags (m : DnsMsg) : Nat :=
  boolBit m.response * 32768 + m.opcode * 2048 + boolBit m.authoritative * 1024 +
  boolBit m.truncated * 512 + boolBit m.recursionDesired * 256 +
  boolBit m.recursionAvailable * 128 + boolBit m.zero * 64 +
  boolBit m.authenticatedData * 32 + boolBit m.checkingDisabled * 16 + m.rcode

/-- `Msg.Pack`: 12-byte header (id, flags, four section counts), then the
question section, then the record sections (already in wire form here). -/
def packMsg (m : DnsMsg) : Option (List Nat) :=
  match packQuestions m.question with
  | none => none
  | some qb =>
      some (pack16 m.id ++ pack16 (packFlags m) ++
        pack16 m.question.length ++ pack16 m.answer.length ++
        pack16 m.ns.length ++ pack16 m.extra.length ++
        qb ++ m.answer.flatten ++ m.ns.flatten ++ m.extra.flatten)

/-! ### Wire decoding (`Msg.Unpack`) -/

/-- `UnpackDomainName` for pointer-free names: reads length-prefixed labels
until the zero byte, re-joining them with dots (the root name reads back as
"."), enforcing the 63-byte label bound (a length byte ≥ 64 that is not a
compression pointer is malformed; compression pointers never occur in the
messages this development decodes and are rejected here) and the 255-octet
total bound via `budget`.  The escaping `UnpackDomainName` applies to
special characters inside labels is not modelled: the names decoded here
contain none (see `plainName`).  `fuel ≥ budget + 1` always suffices. -/
def parseName : Nat → Nat → List Nat → GoStr → Option (GoStr × List Nat)
  | 0, _, _, _ => none
  | _ + 1, _, [], _ => none
  | fuel + 1, budget, b :: rest, acc =>
      if b = 0 then some (if acc.length = 0 then [46] else acc, rest)
      else if b ≥ 64 then none
      else if budget < b + 1 then none
      else if rest.length < b then none
      else parseName fuel (budget - (b + 1)) (rest.drop b) (acc ++ rest.take b ++ [46])

/-- Reads a big-endian uint16. -/
def read16 : List Nat → Option (Nat × List Nat)
  | b0 :: b1 :: rest => some (b0 * 256 + b1, rest)
  | _ => none

/-- Reads one question: name (255-octet budget as in miekg), qtype, qclass. -/
def unpackQuestion (bs : List Nat) : Option (Question × List Nat) := do
  let (name, r1) ← parseName 256 255 bs []
  let (qt, r2) ← read16 r1
  let (qc, r3) ← read16 r2
  pure (⟨name, qt, qc⟩, r3)

def unpackQuestions : Nat → List Nat → Option (List Question × List Nat)
  | 0, bs => some ([], bs)
  | n + 1, bs => do
      let (q, r1) ← unpackQuestion bs
      let (qs, r2) ← unpackQuestions n r1
      pure (q :: qs, r2)

/-- Skips a wire-form domain name inside a record, consuming it: a plain
label sequence ended by a zero byte or a 2-byte compression pointer
(top bits 11); a reserved length byte (top bits 01 or 10) is malformed. -/
def skipName : Nat → List Nat → Option (List Nat × List Nat)
  | 0, _ => none
  | _ + 1, [] => none
  | fuel + 1, b :: rest =>
      if b = 0 then some ([0], rest)
      else if b ≥ 192 then
        match rest with
        | b2 :: rest2 => some ([b, b2], rest2)
        | [] => none
      else if b ≥ 64 then none
      else if rest.length < b then none
      else
        match skipName fuel (rest.drop b) with
        | none => none
        | some (nb, r) => some ((b :: rest.take b) ++ nb, r)

/-- Reads one resource record as an opaque wire blob: owner name, 8 bytes of
type/class/ttl, a 2-byte rdlength, and rdlength bytes of rdata. -/
def skipRR (bs : List Nat) : Option (List Nat × List Nat) := do
  let (nb, r1) ← skipName 256 bs
  if r1.length < 10 then none
  else
    let fixed := r1.take 8
    let (rdlen, r2) ← read16 (r1.drop 8)
    if r2.length < rdlen then none
    else pure (nb ++ fixed ++ pack16 rdlen ++ r2.take rdlen, r2.drop rdlen)

def unpackRRs : Nat → List Nat → Option (List (List Nat) × List Nat)
  | 0, bs => some ([], bs)
  | n + 1, bs => do
      let (rr, r1) ← skipRR bs
      let (rrs, r2) ← unpackRRs n r1
      pure (rr :: rrs, r2)

/-- `Msg.Unpack`: reads the 12-byte header, decomposes the flags word, then
reads as many questions and records as the header counts announce.  Bytes
after the announced sections are ignored, as miekg's unpacker ignores
trailing data. -/
def unpackMsg (bs : List Nat) : Option DnsMsg :=
  match bs with
  | b0 :: b1 :: f1 :: f2 :: c0 :: c1 :: c2 :: c3 :: c4 :: c5 :: c6 :: c7 :: rest => do
      let (qs, r1) ← unpackQuestions (c0 * 256 + c1) rest
      let (ans, r2) ← unpackRRs (c2 * 256 + c3) r1
      let (nss, r3) ← unpackRRs (c4 * 256 + c5) r2
      let (ars, _) ← unpackRRs (c6 * 256 + c7) r3
      pure { id := b0 * 256 + b1
             response := f1 / 128 % 2 = 1
             opcode := f1 / 8 % 16
             authoritative := f1 / 4 % 2 = 1
             truncated := f1 / 2 % 2 = 1
             recursionDesired := f1 % 2 = 1
             recursionAvailable := f2 / 128 % 2 = 1
             zero := f2 / 64 % 2 = 1
             authenticatedData := f2 / 32 % 2 = 1
             checkingDisabled := f2 / 16 % 2 = 1
             rcode := f2 % 16
             question := qs
             answer := ans
             ns := nss
             extra := ars }
  | _ => none

/-! ### The server (src/odoh.go) -/

/-- The errors the pipeline can produce.  The handler only ever tests an
error for nil-ness, so the constructors carry just enough to tell the error
sites apart. -/
inductive GoError where
  | missingQueryParam
  | badBase64
  | unpackFailed
  | wrongContentType (got : GoStr)
  | unsupportedMethod
  | dialFailed
  | writeFailed
  | readFailed
deriving DecidableEq, Repr

/-- `odohServer`: the one value shared by all requests.  `timeout` is a
`time.Duration` (int64 nanoseconds; `main` stores `2500 * time.Millisecond`
in it).  `connection` is the `*dns.Conn` pointer field: `none` is a nil
pointer, `some c` a `dns.Conn` whose inner `net.Conn` is `c` (`none` inside
models the nil `net.Conn` of a freshly allocated `dns.Conn`). -/
structure OdohServer where
  verbose : Bool
  nameserver : GoStr
  timeout : Int
  connection : Option (Option Nat)
deriving DecidableEq, Repr

/-- An inbound HTTP request as the handler observes it: the method, the value
of the `dns` query parameter (`r.URL.Query().Get("dns")` returns the empty
string when the parameter is absent), the `Content-Type` header
(`Header.Get` likewise returns "" when absent), and the body bytes. -/
structure HttpRequest where
  method : GoStr
  dnsParam : GoStr
  contentType : GoStr
  body : List Nat
deriving DecidableEq, Repr

/-- What the handler writes to the `http.ResponseWriter`: the status code
(200 implicitly when only `Write` is called), the `Content-Type` header it
set, if any, and the body bytes. -/
structure HttpResponse where
  status : Nat
  contentType : Option GoStr
  body : List Nat
deriving DecidableEq, Repr

/-- `http.Error(w, http.StatusText(code), code)`: plain-text status line plus
newline, with the Content-Type header `http.Error` sets. -/
def httpError (code : Nat) (text : String) : HttpResponse :=
  { status := code
    contentType := some (strBytes "text/plain; charset=utf-8")
    body := strBytes text ++ [10] }

/-- One observable step `resolve` takes against the network; durations are in
nanoseconds (`time.Duration`). -/
inductive Action where
  | dialTimeout (d : Int)
  | setReadDeadline (d : Int)
  | setWriteDeadline (d : Int)
  | writeMsg
  | readMsg
  | closeConn
deriving DecidableEq, Repr

/-- The network's behaviour for one `resolve` call: how the dial and the
subsequent write/read turn out.  `connId` identifies the `net.Conn` the
successful dial returns. -/
inductive NetOutcome where
  | dialFail
  | writeFail (connId : Nat)
  | readFail (connId : Nat)
  | readOk (connId : Nat) (response : DnsMsg)
deriving DecidableEq, Repr

/-- `time.Millisecond` in nanoseconds. -/
def millisecondNs : Int := 1000000

/-- `startConnection`: allocates a fresh `dns.Conn` into `s.connection`, then
dials with timeout `timeout * time.Millisecond`.  On failure the fresh
`dns.Conn` keeps a nil inner `net.Conn` and an error is returned; on success
the dialed `net.Conn` is stored.  Returns the updated server, the error, and
the network actions taken. -/
def startConnection (s : OdohServer) (_nameserver : GoStr) (timeout : Int)
    (o : NetOutcome) : OdohServer × Option GoError × List Action :=
  match o with
  | NetOutcome.dialFail =>
      ({ s with connection := some none }, some GoError.dialFailed,
        [Action.dialTimeout (timeout * millisecondNs)])
  | NetOutcome.writeFail c | NetOutcome.readFail c | NetOutcome.readOk c _ =>
      ({ s with connection := some (some c) }, none,
        [Action.dialTimeout (timeout * millisecondNs)])

/-- `resolve`: dials via `startConnection`, sets the read and the write
deadline to `s.timeout * time.Millisecond` from now, writes the query, reads
one response.  Returns the response or the first error, the updated server,
and the network actions taken (note: no `Action.closeConn` is ever
emitted — the source never closes the connection). -/
def resolve (s : OdohServer) (_msg : DnsMsg) (o : NetOutcome) :
    (Option DnsMsg × Option GoError) × OdohServer × List Action :=
  match startConnection s s.nameserver s.timeout o with
  | (s1, some e, acts) => ((none, some e), s1, acts)
  | (s1, none, acts) =>
      let acts2 := acts ++ [Action.setReadDeadline (s.timeout * millisecondNs),
        Action.setWriteDeadline (s.timeout * millisecondNs), Action.writeMsg]
      match o with
      | NetOutcome.dialFail => ((none, some GoError.dialFailed), s1, acts)
      | NetOutcome.writeFail _ => ((none, some GoError.writeFailed), s1, acts2)
      | NetOutcome.readFail _ =>
          ((none, some GoError.readFailed), s1, acts2 ++ [Action.readMsg])
      | NetOutcome.readOk _ resp =>
          ((some resp, none), s1, acts2 ++ [Action.readMsg])

/-- `parseRequestFromGET`: reads the `dns` query parameter, base64url-decodes
it, unpacks the message, and — when the question section has exactly one
entry — returns the question's name, the text form of its type, and the
message id.  Like the Go function it returns a 4-tuple whose last component
is the error.  When the question count differs from 1 the source executes
`return "", "", uint16(0), err`, but the `err` in scope there is the (nil)
error of the base64 decode — the unpack error was shadowed inside its `if` —
so that branch returns a nil error, modelled faithfully by `none` here. -/
def parseRequestFromGET (_s : OdohServer) (r : HttpRequest) :
    GoStr × GoStr × Nat × Option GoError :=
  if r.dnsParam.length = 0 then ([], [], 0, some GoError.missingQueryParam)
  else
    match b64decode r.dnsParam with
    | none => ([], [], 0, some GoError.badBase64)
    | some decoded =>
        match unpackMsg decoded with
        | none => ([], [], 0, some GoError.unpackFailed)
        | some msg =>
            match msg.question with
            | [q] => (q.name, typeString q.qtype, msg.id, none)
            | _ => ([], [], 0, none)

/-- `parseRequestFromPOST`: rejects any Content-Type other than
`application/dns-message` before touching the body, then unpacks the body.
Reading an in-memory body cannot fail, so `ioutil.ReadAll`'s error branch
has no counterpart here.  The question-count branch returns a nil error for
the same shadowing reason as in `parseRequestFromGET`. -/
def parseRequestFromPOST (_s : OdohServer) (r : HttpRequest) :
    GoStr × GoStr × Nat × Option GoError :=
  if r.contentType ≠ strBytes "application/dns-message" then
    ([], [], 0, some (GoError.wrongContentType r.contentType))
  else
    match unpackMsg r.body with
    | none => ([], [], 0, some GoError.unpackFailed)
    | some msg =>
        match msg.question with
        | [q] => (q.name, typeString q.qtype, msg.id, none)
        | _ => ([], [], 0, none)

/-- `parseRequest`: dispatch on the HTTP method. -/
def parseRequest (s : OdohServer) (r : HttpRequest) :
    GoStr × GoStr × Nat × Option GoError :=
  if r.method = strBytes "GET" then parseRequestFromGET s r
  else if r.method = strBytes "POST" then parseRequestFromPOST s r
  else ([], [], 0, some GoError.unsupportedMethod)

/-- `createQuery`: builds the upstream query.  `freshId` stands for the
random transaction id `dns.Id()` draws; it is a parameter of the model so
that the result can be stated for every draw.  All `dns.Msg` fields not
assigned by the source keep Go's zero value (false / empty). -/
def createQuery (n t : GoStr) (freshId : Nat) : DnsMsg :=
  { id := freshId
    response := false
    opcode := opcodeQuery
    authoritative := false
    truncated := false
    recursionDesired := true
    recursionAvailable := false
    zero := false
    authenticatedData := false
    checkingDisabled := false
    rcode := rcodeSuccess
    question := [{ name := fqdn n
                   qtype := if t = strBytes "A" then typeA else typeAAAA
                   qclass := classINET }]
    answer := []
    ns := []
    extra := [] }

/-- `queryHandler`: decode the request (400 on error), synthesize and resolve
the upstream query (500 on error), pack the answer (500 on error), else
reply 200 with the packed bytes under `application/dns-message`.  Returns
the written response, the server after the call, and the network actions. -/
def queryHandler (s : OdohServer) (r : HttpRequest) (freshId : Nat)
    (o : NetOutcome) : HttpResponse × OdohServer × List Action :=
  match parseRequest s r with
  | (_, _, _, some _) => (httpError 400 "Bad Request", s, [])
  | (n, t, _, none) =>
      let query := createQuery n t freshId
      match resolve s query o with
      | ((_, some _), s1, acts) => (httpError 500 "Internal Server Error", s1, acts)
      | ((response, none), s1, acts) =>
          match response with
          | none => (httpError 500 "Internal Server Error", s1, acts)
          | some resp =>
              match packMsg resp with
              | none => (httpError 500 "Internal Server Error", s1, acts)
              | some packed =>
                  ({ status := 200
                     contentType := some (strBytes "application/dns-message")
                     body := packed }, s1, acts)

/-- The server `main` builds: verbose, upstream 1.1.1.1:53, timeout
`2500 * time.Millisecond` nanoseconds, nil connection. -/
def mainServer : OdohServer :=
  { verbose := true
    nameserver := strBytes "1.1.1.1:53"
    timeout := 2500 * millisecondNs
    connection := none }

/-- A GET request whose `dns` parameter carries a well-formed DNS message
with zero questions: a bare 12-byte all-zero header, whose unpadded
base64url form is sixteen characters "A" (byte 65). -/
def zeroQuestionGet : HttpRequest :=
  { method := strBytes "GET"
    dnsParam := List.replicate 16 65
    contentType := []
    body := [] }

/-- The query `createQuery("example.com", "A")` would build with
transaction id 7, used as a concrete fixture. -/
def testQuery : DnsMsg := createQuery (strBytes "example.com") (strBytes "A") 7

/-- A well-formed GET request: its `dns` parameter is the base64url form of
the packed `testQuery`. -/
def validGetRequest : HttpRequest :=
  { method := strBytes "GET"
    dnsParam := b64encode ((packMsg testQuery).getD [])
    contentType := []
    body := [] }

/-- A POST request with a wrong Content-Type but a well-formed body. -/
def badContentTypePost : HttpRequest :=
  { method := strBytes "POST"
    dnsParam := []
    contentType := strBytes "text/plain"
    body := (packMsg testQuery).getD [] }

/-- An upstream answer whose response code reports a server failure
(rcode 2), used to check that failure answers are relayed verbatim. -/
def servfailResponse : DnsMsg :=
  { id := 7
    response := true
    opcode := opcodeQuery
    authoritative := false
    truncated := false
    recursionDesired := true
    recursionAvailable := true
    zero := false
    authenticatedData := false
    checkingDisabled := false
    rcode := rcodeServerFailure
    question := [{ name := strBytes "example.com.", qtype := typeA, qclass := classINET }]
    answer := [[7, 101, 120, 97, 109, 112, 108, 101, 3, 99, 111, 109, 0,
      0, 1, 0, 1, 0, 0, 0, 60, 0, 4, 93, 184, 216, 34]]
    ns := []
    extra := [] }

/-! ### Validity envelope and round-trip lemmas -/

/-- A byte a domain-name label may contain without triggering the escaping
that `PackDomainName`/`UnpackDomainName` apply to special characters:
printable ASCII, not a backslash (the separating dots of a name are written
between labels, never inside one). -/
def plainByte (b : Nat) : Bool := decide (33 ≤ b) && decide (b ≤ 126) && decide (b ≠ 92)

/-- A syntactically valid inbound query message, the envelope of claim C9: a
uint16 id, exactly one question whose name is made of plain bytes and whose
type and class are uint16 values, and empty record sections. -/
def validQueryMsg (m : DnsMsg) : Bool :=
  decide (m.id < 65536) && m.answer.isEmpty && m.ns.isEmpty && m.extra.isEmpty &&
  (match m.question with
   | [q] => q.name.all plainByte && decide (q.qtype < 65536) && decide (q.qclass < 65536)
   | _ => false)

theorem b64encode_ne_nil {bs : List Nat} (h : bs ≠ []) : b64encode bs ≠ [] := by
  match bs with
  | [] => exact absurd rfl h
  | [_] => simp [b64encode]
  | [_, _] => simp [b64encode]
  | _ :: _ :: _ :: _ => simp [b64encode]

/-- A name ending in an (unescaped) dot splits as its first label, the dot,
and the remainder. -/
theorem dot_decomp (s : GoStr) (hlast : s.getLast? = some 46) :
    s = s.takeWhile notDot ++ 46 :: (s.dropWhile notDot).tail := by
  have hsplit := List.takeWhile_append_dropWhile notDot s
  cases hdw : s.dropWhile notDot with
  | nil =>
      exfalso
      have hall := List.dropWhile_eq_nil_iff.mp hdw
      obtain ⟨ys, hys⟩ := List.getLast?_eq_some_iff.mp hlast
      have h46 : notDot 46 = true := hall 46 (by rw [hys]; simp)
      simp [notDot] at h46
  | cons d ds =>
      have hd : notDot d = false := by
        have hne : s.dropWhile notDot ≠ [] := by rw [hdw]; simp
        have hh : (s.dropWhile notDot).head hne = d := by simp [hdw]
        have := List.head_dropWhile_not notDot s hne
        rwa [hh] at this
      have hd46 : d = 46 := by
        simp [notDot] at hd
        exact hd
      conv_lhs => rw [← hsplit, hdw, hd46]
      simp

/-- Parsing the packed labels of a dot-terminated name appends the name to
the accumulator and leaves the bytes after the terminating zero untouched. -/
theorem parseName_encodeLabels :
    ∀ (f : Nat) (s nb : List Nat), encodeLabels f s = some nb →
    (s = [] ∨ s.getLast? = some 46) →
    ∀ (fuel budget : Nat) (acc rest : List Nat),
      nb.length ≤ budget → budget + 1 ≤ fuel → (acc = [] → s ≠ []) →
      parseName fuel budget (nb ++ [0] ++ rest) acc = some (acc ++ s, rest) := by
  intro f
  induction f with
  | zero => intro s nb h; simp [encodeLabels] at h
  | succ f ih =>
      intro s nb h hterm fuel budget acc rest hlen hfuel hacc
      match s with
      | [] =>
          simp [encodeLabels] at h
          subst h
          match fuel with
          | 0 => omega
          | fu + 1 =>
              have hne : acc ≠ [] := fun hnil => (hacc hnil) rfl
              simp [parseName, List.length_eq_zero, hne]
      | x :: s' =>
          have hlast : (x :: s').getLast? = some 46 := by
            rcases hterm with h' | h'
            · simp at h'
            · exact h'
          simp only [encodeLabels] at h
          split_ifs at h with h1 h2
          cases henc : encodeLabels f (((x :: s').dropWhile notDot).tail) with
          | none => rw [henc] at h; simp at h
          | some bs' =>
              rw [henc] at h
              simp only [Option.some.injEq] at h
              subst h
              match fuel with
              | 0 => omega
              | fu + 1 =>
                  set lab := (x :: s').takeWhile notDot with hlabdef
                  set rst := ((x :: s').dropWhile notDot).tail with hrstdef
                  have hdecomp : x :: s' = lab ++ 46 :: rst := dot_decomp _ hlast
                  have hlab63 : lab.length ≤ 63 := by omega
                  have hlab0 : lab.length ≠ 0 := h1
                  simp only [List.cons_append, List.append_assoc] at hlen ⊢
                  simp only [List.length_cons, List.length_append] at hlen
                  rw [parseName]
                  rw [if_neg hlab0, if_neg (by omega), if_neg (by omega),
                    if_neg (by simp only [List.length_append]; omega)]
                  rw [List.take_left, List.drop_left]
                  have hterm' : rst = [] ∨ rst.getLast? = some 46 := by
                    cases hr : rst with
                    | nil => exact Or.inl rfl
                    | cons r rs =>
                        right
                        rw [hdecomp, hr] at hlast
                        rw [List.getLast?_append, List.getLast?_cons_cons] at hlast
                        cases hgl : (r :: rs).getLast? with
                        | none =>
                            rw [List.getLast?_eq_none_iff] at hgl
                            simp at hgl
                        | some v =>
                            rw [hgl] at hlast
                            simp [Option.or] at hlast
                            rw [hlast]
                  have hrec := ih rst bs' henc hterm' fu (budget - (lab.length + 1))
                    (acc ++ (lab ++ [46])) rest (by omega) (by omega)
                    (fun hnil => by simp at hnil)
                  simp only [List.append_assoc, List.cons_append, List.nil_append]
                    at hrec ⊢
                  rw [hrec, hdecomp]

theorem isFqdn_getLast {s : GoStr} (h : isFqdn s = true) : s.getLast? = some 46 := by
  unfold isFqdn at h
  cases hgl : s.getLast? with
  | none => rw [hgl] at h; simp at h
  | some v =>
      rw [hgl] at h
      by_cases hv : v = 46
      · rw [hv]
      · exfalso
        rcases Nat.lt_or_ge v 46 with h' | h'
        · interval_cases v <;> simp_all
        · have : v ≠ 46 := hv
          revert h
          have : (match some v with
            | some 46 => ((s.dropLast.reverse.takeWhile fun b => b = 92).length % 2 = 0 : Bool)
            | _ => false) = false := by
            rcases Nat.lt_or_ge 46 v with h'' | h''
            · match v, h'' with
              | v + 47, _ => rfl
            · omega
          rw [this]
          simp

/-- Decoding the wire form of a packed name recovers it and leaves the
following bytes untouched. -/
theorem parseName_encodeName {s nb : GoStr} (h : encodeName s = some nb)
    (rest : List Nat) : parseName 256 255 (nb ++ rest) [] = some (s, rest) := by
  unfold encodeName at h
  split_ifs at h with h1 h2
  · -- the root name "."
    simp only [Option.some.injEq] at h
    subst h
    subst h2
    simp [parseName]
  · cases henc : encodeLabels (s.length + 1) s with
    | none => rw [henc] at h; simp at h
    | some bs =>
        rw [henc] at h
        simp only [Option.some.injEq, ite_eq_right_iff] at h
        split_ifs at h with h3
        simp only [Option.some.injEq] at h
        subst h
        push_neg at h1
        have hlast := isFqdn_getLast h1
        have hne : s ≠ [] := by
          intro hnil
          rw [hnil] at hlast
          simp at hlast
        have := parseName_encodeLabels (s.length + 1) s bs henc (Or.inr hlast)
          256 255 [] rest (by omega) (by omega) (fun _ => hne)
        simpa using this

theorem read16_pack16 {n : Nat} (h : n < 65536) (rest : List Nat) :
    read16 (pack16 n ++ rest) = some (n, rest) := by
  simp only [pack16, List.cons_append, List.nil_append, read16]
  congr 2
  omega

/-- Unpacking one packed question recovers it. -/
theorem unpackQuestion_pack {q : Question} {qb : List Nat}
    (h : packQuestion q = some qb) (hqt : q.qtype < 65536) (hqc : q.qclass < 65536)
    (rest : List Nat) : unpackQuestion (qb ++ rest) = some (q, rest) := by
  unfold packQuestion at h
  cases hn : encodeName q.name with
  | none => rw [hn] at h; simp at h
  | some nb =>
      rw [hn] at h
      simp only [Option.some.injEq] at h
      subst h
      unfold unpackQuestion
      simp only [List.append_assoc]
      rw [parseName_encodeName hn]
      simp only [Option.bind_eq_bind, Option.some_bind]
      rw [read16_pack16 hqt]
      simp only [Option.bind_eq_bind, Option.some_bind]
      rw [read16_pack16 hqc]
      simp

/-- Unpacking a packed single-question query message recovers its id and its
question. -/
theorem unpackMsg_pack {m : DnsMsg} {q : Question} {bs : List Nat}
    (hq : m.question = [q]) (ha : m.answer = []) (hn : m.ns = []) (he : m.extra = [])
    (hid : m.id < 65536) (hqt : q.qtype < 65536) (hqc : q.qclass < 65536)
    (h : packMsg m = some bs) :
    ∃ m', unpackMsg bs = some m' ∧ m'.id = m.id ∧ m'.question = [q] := by
  unfold packMsg at h
  rw [hq, ha, hn, he] at h
  unfold packQuestions packQuestions at h
  cases hpq : packQuestion q with
  | none => rw [hpq] at h; simp at h
  | some qb =>
      rw [hpq] at h
      simp only [Option.some.injEq] at h
      subst h
      have hquest := unpackQuestion_pack hpq hqt hqc []
      rw [List.append_nil] at hquest
      simp only [pack16, List.cons_append, List.nil_append, List.append_nil,
        List.length_cons, List.length_nil]
      rw [unpackMsg]
      norm_num
      rw [unpackQuestions]
      simp only [Option.bind_eq_bind, Option.some_bind]
      rw [hquest]
      simp only [Option.bind_eq_bind, Option.some_bind]
      rw [unpackQuestions]
      simp only [Option.bind_eq_bind, Option.some_bind, unpackRRs, Option.pure_def]
      refine ⟨_, rfl, ?_, rfl⟩
      show m.id / 256 % 256 * 256 + m.id % 256 = m.id
      omega

theorem pack16_bytes (n : Nat) : ∀ b ∈ pack16 n, b < 256 := by
  intro b hb
  simp [pack16] at hb
  rcases hb with rfl | rfl <;> omega

theorem encodeLabels_bytes : ∀ (f : Nat) (s nb : List Nat), encodeLabels f s = some nb →
    (∀ b ∈ s, b < 256) → ∀ b ∈ nb, b < 256 := by
  intro f
  induction f with
  | zero => intro s nb h; simp [encodeLabels] at h
  | succ f ih =>
      intro s nb h hs
      match s with
      | [] =>
          simp [encodeLabels] at h
          subst h
          simp
      | x :: s' =>
          simp only [encodeLabels] at h
          split_ifs at h with h1 h2
          cases henc : encodeLabels f (((x :: s').dropWhile notDot).tail) with
          | none => rw [henc] at h; simp at h
          | some bs' =>
              rw [henc] at h
              simp only [Option.some.injEq] at h
              subst h
              intro b hb
              simp only [List.cons_append, List.mem_cons, List.mem_append] at hb
              rcases hb with rfl | hb | hb
              · omega
              · exact hs b ((List.takeWhile_sublist _).mem hb)
              · refine ih _ bs' henc ?_ b hb
                intro c hc
                exact hs c (((List.tail_sublist _).trans (List.dropWhile_sublist _)).mem hc)

theorem encodeName_bytes {s nb : GoStr} (h : encodeName s = some nb)
    (hs : ∀ b ∈ s, b < 256) : ∀ b ∈ nb, b < 256 := by
  unfold encodeName at h
  split_ifs at h with h1 h2
  · simp only [Option.some.injEq] at h
    subst h
    simp
  · cases henc : encodeLabels (s.length + 1) s with
    | none => rw [henc] at h; simp at h
    | some bs =>
        rw [henc] at h
        simp only [Option.some.injEq, ite_eq_right_iff] at h
        split_ifs at h with h3
        simp only [Option.some.injEq] at h
        subst h
        intro b hb
        simp only [List.mem_append, List.mem_singleton] at hb
        rcases hb with hb | rfl
        · exact encodeLabels_bytes _ _ _ henc hs b hb
        · omega

/-- Every byte `Pack` emits for a single-question query is a byte value. -/
theorem packMsg_bytes {m : DnsMsg} {q : Question} {bs : List Nat}
    (hq : m.question = [q]) (ha : m.answer = []) (hn : m.ns = []) (he : m.extra = [])
    (hname : ∀ b ∈ q.name, b < 256) (h : packMsg m = some bs) : ∀ b ∈ bs, b < 256 := by
  unfold packMsg at h
  rw [hq, ha, hn, he] at h
  unfold packQuestions packQuestions at h
  cases hpq : packQuestion q with
  | none => rw [hpq] at h; simp at h
  | some qb =>
      rw [hpq] at h
      simp only [Option.some.injEq] at h
      subst h
      have hqb : ∀ b ∈ qb, b < 256 := by
        unfold packQuestion at hpq
        cases hen : encodeName q.name with
        | none => rw [hen] at hpq; simp at hpq
        | some nb =>
            rw [hen] at hpq
            simp only [Option.some.injEq] at hpq
            subst hpq
            intro b hb
            simp only [List.mem_append] at hb
            rcases hb with (hb | hb) | hb
            · exact encodeName_bytes hen hname b hb
            · exact pack16_bytes _ b hb
            · exact pack16_bytes _ b hb
      intro b hb
      simp only [List.flatten_nil, List.append_nil, List.mem_append] at hb
      rcases hb with (((((hb | hb) | hb) | hb) | hb) | hb) | hb
      all_goals first
        | exact pack16_bytes _ b hb
        | exact hqb b hb

/-! ### The claims -/

/-- Claim C9: for every syntactically valid wire-format DNS query message,
packing it, base64url-encoding the bytes, supplying the string as the `dns`
parameter of a GET request and running `parseRequestFromGET` returns no
error and yields exactly the original message's question name and question
type (the type in the text form the decoder emits), along with the original
id. -/
theorem claim_C9_get_roundtrip (s : OdohServer) (m : DnsMsg) (q : Question)
    (bs : List Nat) (ct : GoStr) (body : List Nat)
    (hv : validQueryMsg m = true) (hq : m.question = [q])
    (hpack : packMsg m = some bs) :
    parseRequestFromGET s
      { method := strBytes "GET", dnsParam := b64encode bs, contentType := ct,
        body := body } =
      (q.name, typeString q.qtype, m.id, none) := by
  simp only [validQueryMsg, hq, Bool.and_eq_true, decide_eq_true_eq,
    List.isEmpty_iff, List.all_eq_true] at hv
  obtain ⟨⟨⟨⟨hid, ha⟩, hn⟩, he⟩, ⟨hname, hqt⟩, hqc⟩ := hv
  have hname256 : ∀ b ∈ q.name, b < 256 := by
    intro b hb
    have := hname b hb
    simp only [plainByte, Bool.and_eq_true, decide_eq_true_eq] at this
    omega
  have hbytes := packMsg_bytes hq ha hn he hname256 hpack
  have hdec := b64decode_encode bs hbytes
  have hbsne : bs ≠ [] := by
    unfold packMsg at hpack
    cases hqq : packQuestions m.question with
    | none => rw [hqq] at hpack; simp at hpack
    | some qb =>
        rw [hqq] at hpack
        simp only [Option.some.injEq] at hpack
        subst hpack
        simp [pack16]
  have hlen : ¬ (b64encode bs).length = 0 := by
    have := b64encode_ne_nil hbsne
    simpa [List.length_eq_zero] using this
  obtain ⟨m', hm', hmid, hmq⟩ := unpackMsg_pack hq ha hn he hid hqt hqc hpack
  unfold parseRequestFromGET
  rw [if_neg hlen, hdec]
  simp only [hm', hmq, hmid]

/-- Witness for claim C9 at the query for example.com, type AAAA, id 77. -/
theorem claim_C9_get_roundtrip_witness :
    parseRequestFromGET mainServer
      { method := strBytes "GET"
        dnsParam := b64encode
          ((packMsg (createQuery (strBytes "example.com") (strBytes "AAAA") 77)).getD [])
        contentType := []
        body := [] } =
      (strBytes "example.com.", typeString typeAAAA, 77, none) :=
  claim_C9_get_roundtrip mainServer
    (createQuery (strBytes "example.com") (strBytes "AAAA") 77)
    { name := strBytes "example.com.", qtype := typeAAAA, qclass := classINET }
    ((packMsg (createQuery (strBytes "example.com") (strBytes "AAAA") 77)).getD [])
    [] [] (by decide) (by decide) (by decide)

/-- Claim C1 (code bug): a message with zero questions is NOT rejected: the
question-count branch of the decoders returns the shadowed, nil outer
error (`return "", "", uint16(0), err` where `err` is the already-checked
earlier error), so the handler sees no error, skips the 400 path, and
proceeds into the Query Synthesizer and the Resolver (here a dial failure
turns into 500, not 400).  The same holds for the POST decoder. -/
theorem claim_C1_zero_question_not_rejected :
    b64decode zeroQuestionGet.dnsParam = some (List.replicate 12 0) ∧
    (unpackMsg (List.replicate 12 0)).map DnsMsg.question = some [] ∧
    parseRequestFromGET mainServer zeroQuestionGet = ([], [], 0, none) ∧
    (queryHandler mainServer zeroQuestionGet 7 NetOutcome.dialFail).1.status = 500 ∧
    parseRequestFromPOST mainServer
      { method := strBytes "POST", dnsParam := [],
        contentType := strBytes "application/dns-message",
        body := List.replicate 12 0 } = ([], [], 0, none) := by
  decide

/-- Claim C2 (code bug): `main` configures `timeout = 2500 * time.Millisecond`
(2.5e9 ns), but the dial timeout and both deadlines are
`timeout * time.Millisecond` — the configured duration scaled by a further
10^6, i.e. 2.5e15 ns (about 28.9 days), not the configured value. -/
theorem claim_C2_timeout_scaled_again :
    mainServer.timeout = 2500000000 ∧
    (resolve mainServer testQuery (NetOutcome.readOk 1 testQuery)).2.2 =
      [Action.dialTimeout 2500000000000000,
       Action.setReadDeadline 2500000000000000,
       Action.setWriteDeadline 2500000000000000,
       Action.writeMsg, Action.readMsg] ∧
    (2500000000000000 : Int) ≠ (2500000000 : Int) := by
  refine ⟨rfl, by decide, by decide⟩

/-- Claim C3 (code bug): `resolve` never closes the upstream connection on
any outcome — the trace of network actions contains no close at all (the
source has no `Close` call). -/
theorem claim_C3_connection_never_closed (s : OdohServer) (msg : DnsMsg)
    (o : NetOutcome) :
    ((resolve s msg o).2.2).count Action.closeConn = 0 := by
  cases o <;>
    simp [resolve, startConnection, List.count_cons, List.count_nil]

/-- Claim C4 counterexample: handling one request DOES mutate state of the
server that outlives the request — `startConnection` overwrites the
`connection` field, so it differs before and after the pipeline call. -/
theorem claim_C4_counterexample :
    (queryHandler mainServer validGetRequest 7 (NetOutcome.readOk 5 testQuery)).2.1.connection
      = some (some 5) ∧
    mainServer.connection = none := by
  decide

/-- Claim C4 amended: the configuration fields (verbose, nameserver,
timeout) are identical before and after a pipeline invocation; only the
`connection` field is overwritten (whenever the pipeline reaches the
resolver). -/
theorem claim_C4_config_preserved (s : OdohServer) (r : HttpRequest)
    (g : Nat) (o : NetOutcome) :
    (queryHandler s r g o).2.1.verbose = s.verbose ∧
    (queryHandler s r g o).2.1.nameserver = s.nameserver ∧
    (queryHandler s r g o).2.1.timeout = s.timeout := by
  unfold queryHandler
  rcases hpr : parseRequest s r with ⟨n, rest⟩
  rcases rest with ⟨t, rest⟩
  rcases rest with ⟨i, e⟩
  cases e with
  | some err => simp
  | none =>
      cases o with
      | dialFail => simp [resolve, startConnection]
      | writeFail c => simp [resolve, startConnection]
      | readFail c => simp [resolve, startConnection]
      | readOk c resp =>
          cases hpm : packMsg resp <;> simp [resolve, startConnection, hpm]

/-- Claim C5: `createQuery(n, t)` sets the question's record type to A
exactly when `t` is the string "A", and to AAAA for every other `t`
(including "AAAA" itself and unrecognized values). -/
theorem claim_C5_type_mapping (n t : GoStr) (g : Nat) :
    (createQuery n t g).question.map Question.qtype =
      [if t = strBytes "A" then typeA else typeAAAA] ∧
    ((createQuery n t g).question.map Question.qtype = [typeA] ↔ t = strBytes "A") := by
  constructor
  · simp [createQuery]
  · by_cases h : t = strBytes "A" <;> simp [createQuery, h, typeA, typeAAAA]

/-- Witness for claim C5 at an unrecognized type string ("TXT" maps to
AAAA, not A). -/
theorem claim_C5_type_mapping_witness :
    (createQuery (strBytes "example.com") (strBytes "TXT") 3).question.map Question.qtype =
      [if strBytes "TXT" = strBytes "A" then typeA else typeAAAA] ∧
    ((createQuery (strBytes "example.com") (strBytes "TXT") 3).question.map Question.qtype
        = [typeA] ↔ strBytes "TXT" = strBytes "A") :=
  claim_C5_type_mapping (strBytes "example.com") (strBytes "TXT") 3

/-- Claim C6: `createQuery` is a total function (it is defined for all name
and type strings, with no error case), and for every generated transaction
id `g` — the model's stand-in for the random `dns.Id()` draw, taken for
every possible value and in particular independent of any inbound id — the
result has opcode = standard query, rcode = success, recursion desired,
id = `g`, and exactly one question: the fully-qualified form of `n`,
Internet class. -/
theorem claim_C6_createQuery_shape (n t : GoStr) (g : Nat) :
    (createQuery n t g).opcode = opcodeQuery ∧
    (createQuery n t g).rcode = rcodeSuccess ∧
    (createQuery n t g).recursionDesired = true ∧
    (createQuery n t g).id = g ∧
    (createQuery n t g).question =
      [{ name := fqdn n
         qtype := if t = strBytes "A" then typeA else typeAAAA
         qclass := classINET }] := by
  refine ⟨rfl, rfl, rfl, rfl, rfl⟩

/-- Claim C7: a POST whose Content-Type is not exactly
"application/dns-message" is rejected before the body is read (the result
does not depend on the body), and the handler answers 400 even when the
body is a valid wire-format query. -/
theorem claim_C7_content_type_gate (s : OdohServer) (r : HttpRequest)
    (g : Nat) (o : NetOutcome) (body' : List Nat)
    (h : r.contentType ≠ strBytes "application/dns-message")
    (hm : r.method = strBytes "POST") :
    parseRequestFromPOST s r =
      ([], [], 0, some (GoError.wrongContentType r.contentType)) ∧
    parseRequestFromPOST s { r with body := body' } = parseRequestFromPOST s r ∧
    (queryHandler s r g o).1.status = 400 := by
  refine ⟨?_, ?_, ?_⟩
  · unfold parseRequestFromPOST
    rw [if_pos h]
  · unfold parseRequestFromPOST
    rw [if_pos h, if_pos h]
  · unfold queryHandler parseRequest
    rw [hm, if_neg (by decide), if_pos rfl]
    unfold parseRequestFromPOST
    rw [if_pos h]
    simp [httpError]

/-- Witness for claim C7: POST with Content-Type text/plain and a valid
body is rejected with 400. -/
theorem claim_C7_content_type_gate_witness :
    parseRequestFromPOST mainServer badContentTypePost =
      ([], [], 0, some (GoError.wrongContentType (strBytes "text/plain"))) ∧
    parseRequestFromPOST mainServer { badContentTypePost with body := [] } =
      parseRequestFromPOST mainServer badContentTypePost ∧
    (queryHandler mainServer badContentTypePost 7 NetOutcome.dialFail).1.status = 400 :=
  claim_C7_content_type_gate mainServer badContentTypePost 7 NetOutcome.dialFail []
    (by decide) (by decide)

/-- Claim C8 counterexample: the question-count violation is NOT among the
errors of the decode stage — on a zero-question message `parseRequest`
returns a nil error and the handler proceeds (here all the way to 200), so
that violation never yields the claimed 400. -/
theorem claim_C8_counterexample :
    parseRequest mainServer zeroQuestionGet = ([], [], 0, none) ∧
    (queryHandler mainServer zeroQuestionGet 7 (NetOutcome.readOk 1 testQuery)).1.status = 200 := by
  decide

/-- Claim C8 amended: the handler's status is fully determined by the stage
outcomes — any error `parseRequest` returns (missing query parameter, bad
base64, unsupported method, wrong content type, unpack failure — but not
the question-count violation, which returns no error) yields 400, any
resolve error and any Pack failure yields 500, and a fully successful
pipeline yields 200; no other status is produced. -/
theorem claim_C8_status_mapping (s : OdohServer) (r : HttpRequest)
    (g : Nat) (o : NetOutcome) :
    (queryHandler s r g o).1.status =
      match (parseRequest s r).2.2.2 with
      | some _ => 400
      | none =>
          match (resolve s (createQuery (parseRequest s r).1 (parseRequest s r).2.1 g) o).1 with
          | (_, some _) => 500
          | (none, none) => 500
          | (some resp, none) =>
              match packMsg resp with
              | none => 500
              | some _ => 200 := by
  unfold queryHandler
  rcases hpr : parseRequest s r with ⟨n, rest⟩
  rcases rest with ⟨t, rest⟩
  rcases rest with ⟨i, e⟩
  cases e with
  | some err => simp [httpError]
  | none =>
      simp only
      rcases hres : resolve s (createQuery n t g) o with ⟨⟨mr, er⟩, s1, acts⟩
      cases er with
      | some err => simp [httpError]
      | none =>
          cases mr with
          | none => simp [httpError]
          | some resp =>
              cases hpm : packMsg resp with
              | none => simp [httpError, hpm]
              | some packed => simp [hpm]

/-- Claim C10: whenever decoding succeeded and the upstream answered, any
answer message that Pack can serialize — including one whose response code
reports a failure, and with all its record sections carried through — is
written verbatim: status 200, Content-Type `application/dns-message`, body
exactly the bytes Pack produced. -/
theorem claim_C10_answer_relayed (s : OdohServer) (r : HttpRequest)
    (g c : Nat) (resp : DnsMsg) (packed : List Nat)
    (hparse : (parseRequest s r).2.2.2 = none)
    (hpack : packMsg resp = some packed) :
    (queryHandler s r g (NetOutcome.readOk c resp)).1 =
      { status := 200
        contentType := some (strBytes "application/dns-message")
        body := packed } := by
  unfold queryHandler
  rcases hpr : parseRequest s r with ⟨n, rest⟩
  rcases rest with ⟨t, rest⟩
  rcases rest with ⟨i, e⟩
  rw [hpr] at hparse
  simp only at hparse
  subst hparse
  simp only [resolve, startConnection, hpack]

/-- Witness for claim C10: a SERVFAIL answer carrying one A record is
relayed byte-for-byte. -/
theorem claim_C10_answer_relayed_witness :
    (queryHandler mainServer validGetRequest 7
        (NetOutcome.readOk 5 servfailResponse)).1 =
      { status := 200
        contentType := some (strBytes "application/dns-message")
        body := (packMsg servfailResponse).getD [] } :=
  claim_C10_answer_relayed mainServer validGetRequest 7 5 servfailResponse
    ((packMsg servfailResponse).getD []) (by decide) (by decide)

end Odoh
